import Mathlib

/-!
Shallow embedding of the Episode Dataset Compiler of `src/api/main.py`
(repository hshadab/robosim).

The embedding covers the two conversion endpoints:

* `upload_dataset` ("directory mode", lines 101-334): row projection,
  schema inference from the first projected row, columnar encoding into a
  fixed-width table, episode metadata, the task dictionary and the
  `info.json` descriptor.
* `convert_to_parquet` ("buffer mode", lines 337-395): its simpler row
  projection and inferred-type columnar encoding, the empty-input check,
  the response object, and the blanket `except Exception` wrapper that
  re-raises every exception as an HTTP 500.

Python numbers are modelled as `Int` / `Rat` (division such as
`frame_idx / 30.0` is exact on `Rat`); dictionaries with a known key set
are modelled as structures with `Option` fields (`none` = key absent);
raised `HTTPException`s and `pyarrow` encoding failures are modelled with
`Except`.  Parquet byte serialization (`pyarrow.parquet.write_table`) is an
external library call and is modelled as an explicit function parameter
from tables to byte lists.
-/

namespace RoboSim

/-- One frame dictionary of `Episode.frames` (a `dict` in the source).
`timestamp` is `frame.get("timestamp", ...)`; `obsJointPositions`,
`obsImage` live under `frame["observation"]`; `actJointPositions` and
`actTargetPositions` live under `frame["action"]`.  `none` models an
absent key. -/
structure Frame where
  timestamp : Option Rat
  obsJointPositions : Option (List Rat)
  obsImage : Option (List Nat)
  actJointPositions : Option (List Rat)
  actTargetPositions : Option (List Rat)
deriving DecidableEq

/-- The `Episode` pydantic model: `episodeIndex`, `frames`, and the only
metadata key the compiler reads, `metadata.get("languageInstruction")`. -/
structure Episode where
  episodeIndex : Int
  frames : List Frame
  languageInstruction : Option String
deriving DecidableEq

/-- A projected row of directory mode (`upload_dataset`, lines 165-185):
the dict built per frame.  The four scalar keys are always present;
`observationState`, `observationImage` and `action` are optional. -/
structure Row where
  episode_index : Int
  frame_index : Nat
  timestamp : Rat
  task_index : Int
  observationState : Option (List Rat)
  observationImage : Option (List Nat)
  action : Option (List Rat)
deriving DecidableEq

/-- Directory-mode row projection for one frame (lines 165-185):
timestamp defaults to `frame_idx / 30.0`; `observation.state` is
`observation.jointPositions` when present; `action` is
`action.jointPositions`, else `action.targetPositions`, else absent;
`task_index` is the literal `0`. -/
def projectFrame (epIdx : Int) (frameIdx : Nat) (f : Frame) : Row :=
  { episode_index := epIdx
    frame_index := frameIdx
    timestamp := f.timestamp.getD ((frameIdx : Rat) / 30)
    task_index := 0
    observationState := f.obsJointPositions
    observationImage := f.obsImage
    action :=
      match f.actJointPositions with
      | some v => some v
      | none => f.actTargetPositions }

/-- The `for frame_idx, frame in enumerate(episode.frames)` loop of
directory mode, carrying the running frame index. -/
def projectFrames (epIdx : Int) (k : Nat) : List Frame → List Row
  | [] => []
  | f :: fs => projectFrame epIdx k f :: projectFrames epIdx (k + 1) fs

/-- All directory-mode rows of one episode, frame indices from 0. -/
def rowsOfEpisode (ep : Episode) : List Row :=
  projectFrames ep.episodeIndex 0 ep.frames

/-- `all_rows` of directory mode: episodes in order, frames in order. -/
def allRows : List Episode → List Row
  | [] => []
  | ep :: rest => rowsOfEpisode ep ++ allRows rest

/-- A buffer-mode row (`convert_to_parquet`, lines 353-364): no
`task_index` key, and `action` is read only from `action.jointPositions`
(no `targetPositions` fallback). -/
structure BRow where
  episode_index : Int
  frame_index : Nat
  timestamp : Rat
  observationState : Option (List Rat)
  action : Option (List Rat)
deriving DecidableEq

/-- Buffer-mode row projection for one frame (lines 353-364). -/
def projectFrameBuffer (epIdx : Int) (frameIdx : Nat) (f : Frame) : BRow :=
  { episode_index := epIdx
    frame_index := frameIdx
    timestamp := f.timestamp.getD ((frameIdx : Rat) / 30)
    observationState := f.obsJointPositions
    action := f.actJointPositions }

/-- The frame loop of buffer mode. -/
def projectFramesBuffer (epIdx : Int) (k : Nat) : List Frame → List BRow
  | [] => []
  | f :: fs => projectFrameBuffer epIdx k f :: projectFramesBuffer epIdx (k + 1) fs

/-- All buffer-mode rows of one episode. -/
def bufferRowsOfEpisode (ep : Episode) : List BRow :=
  projectFramesBuffer ep.episodeIndex 0 ep.frames

/-- `all_rows` of buffer mode. -/
def bufferRows : List Episode → List BRow
  | [] => []
  | ep :: rest => bufferRowsOfEpisode ep ++ bufferRows rest

/-- `sum(len(ep.frames) for ep in request.episodes)` (line 245). -/
def totalFrames (episodes : List Episode) : Nat :=
  (episodes.map fun ep => ep.frames.length).sum

/-- A pyarrow column type of the inferred schema (lines 190-204):
`int64`, `float64`, or `pa.list_(pa.float32(), W)` — a fixed-size list of
declared width `W`. -/
inductive ColType where
  | int64 : ColType
  | float64 : ColType
  | fslist : Nat → ColType
deriving DecidableEq

/-- One cell of a column: a typed scalar, a vector value, or the `None`
appended for a row missing an optional field (line 218). -/
inductive Cell where
  | int : Int → Cell
  | float : Rat → Cell
  | vec : List Rat → Cell
  | null : Cell
deriving DecidableEq

/-- The four base schema fields of directory mode (lines 190-195). -/
def baseFields : List (String × ColType) :=
  [("episode_index", ColType.int64), ("frame_index", ColType.int64),
   ("timestamp", ColType.float64), ("task_index", ColType.int64)]

/-- Directory-mode schema inference (lines 197-204): the base fields,
then `observation.state` and `action` as fixed-size float32 lists whose
widths are the lengths of the first row's vectors, each included only when
the first row carries the field. -/
def schemaFields (rows : List Row) : List (String × ColType) :=
  match rows with
  | [] => baseFields
  | r0 :: _ =>
    baseFields
      ++ (match r0.observationState with
          | some l => [("observation.state", ColType.fslist l.length)]
          | none => [])
      ++ (match r0.action with
          | some l => [("action", ColType.fslist l.length)]
          | none => [])

/-- Reading one schema field from one row dict (lines 209-218): the value
when the key is present, else `None`. -/
def cellOfRow (name : String) (r : Row) : Cell :=
  if name = "episode_index" then Cell.int r.episode_index
  else if name = "frame_index" then Cell.int (Int.ofNat r.frame_index)
  else if name = "timestamp" then Cell.float r.timestamp
  else if name = "task_index" then Cell.int r.task_index
  else if name = "observation.state" then
    match r.observationState with
    | some l => Cell.vec l
    | none => Cell.null
  else if name = "action" then
    match r.action with
    | some l => Cell.vec l
    | none => Cell.null
  else Cell.null

/-- The column list built for one schema field (lines 207-218). -/
def columnOf (rows : List Row) (name : String) : List Cell :=
  rows.map (cellOfRow name)

/-- The only way the columnar encode step can fail: `pa.array` with a
fixed-size-list type raises when an item's length differs from the
declared width. -/
inductive EncodeError where
  | dimensionMismatch : String → Nat → EncodeError
deriving DecidableEq

/-- Whether one cell is acceptable to `pa.array` at a fixed-size-list
type of width `W`: a vector of exactly that length, or a null. -/
def fixedListOk (W : Nat) : Cell → Bool
  | Cell.vec l => l.length == W
  | Cell.null => true
  | _ => false

/-- `pa.array(column, type=field_type)` (lines 223-229): scalar columns
are well-typed by construction; a fixed-size-list column fails with a
dimension mismatch when any vector cell has the wrong length.  On success
the cells pass through unchanged — nothing is truncated or padded. -/
def makeArray (name : String) (t : ColType) (cells : List Cell) :
    Except EncodeError (List Cell) :=
  match t with
  | ColType.fslist W =>
    match cells.all (fixedListOk W) with
    | true => Except.ok cells
    | false => Except.error (EncodeError.dimensionMismatch name W)
  | _ => Except.ok cells

/-- The array-building loop over schema fields (lines 221-233): the first
`pa.array` failure aborts the whole compile. -/
def collectFields (rows : List Row) :
    List (String × ColType) → Except EncodeError (List (String × List Cell))
  | [] => Except.ok []
  | (name, t) :: rest =>
    match makeArray name t (columnOf rows name) with
    | Except.error e => Except.error e
    | Except.ok arr =>
      match collectFields rows rest with
      | Except.error e => Except.error e
      | Except.ok tl => Except.ok ((name, arr) :: tl)

/-- The directory-mode table `pa.table(dict(zip(names, arrays)))`:
columns in schema order, each paired with its cell list. -/
def buildTable (rows : List Row) : Except EncodeError (List (String × List Cell)) :=
  collectFields rows (schemaFields rows)

/-- An episode's task string:
`episode.metadata.get("languageInstruction", "manipulation task")`. -/
def taskOf (ep : Episode) : String :=
  ep.languageInstruction.getD "manipulation task"

/-- `tasks.add(task)`: insert a string into the deduplicated list when it
is not already present. -/
def addTask (acc : List String) (s : String) : List String :=
  if s ∈ acc then acc else acc ++ [s]

/-- The episode loop accumulating the `tasks` set (lines 148-153).  The
Python `set` has unspecified iteration order; insertion order is taken as
the representative — every property proved about it below is
order-independent. -/
def tasksAux (acc : List String) : List Episode → List String
  | [] => acc
  | ep :: rest => tasksAux (addTask acc (taskOf ep)) rest

/-- The distinct task strings of a batch. -/
def tasksList (episodes : List Episode) : List String :=
  tasksAux [] episodes

/-- `enumerate(tasks)` writing `meta/tasks.jsonl` (lines 270-272): each
distinct task string paired with its dense index. -/
def taskEntries (episodes : List Episode) : List (Nat × String) :=
  (tasksList episodes).enum

/-- One record of `meta/episodes.jsonl` (lines 155-159). -/
structure EpisodeMeta where
  episode_index : Int
  tasks : List String
  length : Nat
deriving DecidableEq

/-- The `episode_metadata` list (lines 155-159): one record per episode,
in order, with `length = len(episode.frames)`. -/
def episodeMetadata (episodes : List Episode) : List EpisodeMeta :=
  episodes.map fun ep =>
    { episode_index := ep.episodeIndex, tasks := [taskOf ep], length := ep.frames.length }

/-- A feature descriptor of `meta/info.json` (lines 246-257). -/
structure FeatureDesc where
  dtype : String
  shape : List Nat
  names : List String
deriving DecidableEq

/-- The six fixed joint names used for every feature descriptor. -/
def jointNames : List String :=
  ["joint_1", "joint_2", "joint_3", "joint_4", "joint_5", "gripper"]

/-- The `meta/info.json` dictionary (lines 240-259). -/
structure DatasetInfo where
  codebase_version : String
  robot_type : String
  fps : Int
  total_episodes : Nat
  total_frames : Nat
  featObservationState : FeatureDesc
  featAction : FeatureDesc
  splitTrain : String
deriving DecidableEq

/-- Building `info` (lines 240-259): totals recomputed from the episode
list, feature shapes taken from the first projected row
(`[len(all_rows[0].get(key, []))] if all_rows else [6]`), names fixed. -/
def buildInfo (robotType : String) (fps : Int) (episodes : List Episode) : DatasetInfo :=
  let rows := allRows episodes
  { codebase_version := "v3.0"
    robot_type := robotType
    fps := fps
    total_episodes := episodes.length
    total_frames := totalFrames episodes
    featObservationState :=
      { dtype := "float32"
        shape :=
          match rows with
          | [] => [6]
          | r0 :: _ => [(r0.observationState.getD []).length]
        names := jointNames }
    featAction :=
      { dtype := "float32"
        shape :=
          match rows with
          | [] => [6]
          | r0 :: _ => [(r0.action.getD []).length]
        names := jointNames }
    splitTrain := "0:" ++ toString episodes.length }

/-- The bundle assembled in the temporary directory of `upload_dataset`
(lines 138-313): the data table (written only when `all_rows` is
non-empty, line 188), `info.json`, `episodes.jsonl` and `tasks.jsonl`. -/
structure Bundle where
  table : Option (List (String × List Cell))
  info : DatasetInfo
  episodesMeta : List EpisodeMeta
  taskIndex : List (Nat × String)
deriving DecidableEq

/-- Directory-mode bundle assembly: an encode failure raises out of the
`with tempfile.TemporaryDirectory()` block, so no bundle at all is
produced — the scratch tree is discarded. -/
def buildBundle (robotType : String) (fps : Int) (episodes : List Episode) :
    Except EncodeError Bundle :=
  let rows := allRows episodes
  if rows.isEmpty then
    Except.ok
      { table := none
        info := buildInfo robotType fps episodes
        episodesMeta := episodeMetadata episodes
        taskIndex := taskEntries episodes }
  else
    match buildTable rows with
    | Except.error e => Except.error e
    | Except.ok tbl =>
      Except.ok
        { table := some tbl
          info := buildInfo robotType fps episodes
          episodesMeta := episodeMetadata episodes
          taskIndex := taskEntries episodes }

/-- The buffer-mode table (lines 370-381): three base columns from the
row dicts, then `observation.state` and `action` columns when the first
row carries the field, with `r.get(key, [])` — a missing value becomes an
EMPTY list, not a null.  `pa.table(columns)` infers types, so no width
check happens here. -/
def bufferTable (episodes : List Episode) : List (String × List Cell) :=
  let rows := bufferRows episodes
  [("episode_index", rows.map fun r => Cell.int r.episode_index),
   ("frame_index", rows.map fun r => Cell.int (Int.ofNat r.frame_index)),
   ("timestamp", rows.map fun r => Cell.float r.timestamp)]
    ++ (match rows with
        | [] => []
        | r0 :: _ =>
          (if r0.observationState.isSome then
            [("observation.state", rows.map fun r => Cell.vec (r.observationState.getD []))]
          else [])
            ++ (if r0.action.isSome then
                [("action", rows.map fun r => Cell.vec (r.action.getD []))]
              else []))

/-- A raised `fastapi.HTTPException`: status code and detail string. -/
structure HTTPError where
  status : Nat
  detail : String
deriving DecidableEq

/-- Starlette's `str(HTTPException)`: `"<status>: <detail>"`. -/
def httpErrorToString (e : HTTPError) : String :=
  toString e.status ++ ": " ++ e.detail

/-- One lowercase hexadecimal digit. -/
def hexDigit (n : Nat) : Char :=
  if n < 10 then Char.ofNat (48 + n) else Char.ofNat (87 + n)

/-- `bytes.hex()` for one byte: two lowercase hex digits. -/
def byteHex (b : Nat) : String :=
  String.mk [hexDigit (b / 16 % 16), hexDigit (b % 16)]

/-- `bytes.hex()`: the concatenation of each byte's two hex digits. -/
def bytesHex (bs : List Nat) : String :=
  String.join (bs.map byteHex)

/-- The JSON body returned by `convert_to_parquet` on success
(lines 388-392).  Despite its name, `parquet_base64` holds a hex string. -/
structure ConvertResponse where
  success : Bool
  parquet_base64 : String
  num_rows : Nat
deriving DecidableEq

/-- The `try:` body of `convert_to_parquet` (lines 344-392): project all
rows, raise `HTTPException(400, "No frames to convert")` when none exist
(line 367, before any encoding), otherwise encode the table, serialize it
(`serialize` stands for `pq.write_table` into a `BytesIO` buffer) and
answer with the hex payload and the row count. -/
def convertBody (serialize : List (String × List Cell) → List Nat)
    (episodes : List Episode) : Except HTTPError ConvertResponse :=
  let rows := bufferRows episodes
  if rows.isEmpty then
    Except.error { status := 400, detail := "No frames to convert" }
  else
    Except.ok
      { success := true
        parquet_base64 := bytesHex (serialize (bufferTable episodes))
        num_rows := rows.length }

/-- The whole endpoint (lines 343-395): unlike `upload_dataset`, there is
no `except HTTPException: raise` clause, so the blanket
`except Exception as e: raise HTTPException(status_code=500, detail=str(e))`
also catches the endpoint's own `HTTPException`s and re-wraps them with
status 500 and `str(e)` as the detail. -/
def convert_to_parquet (serialize : List (String × List Cell) → List Nat)
    (episodes : List Episode) : Except HTTPError ConvertResponse :=
  match convertBody serialize episodes with
  | Except.error e => Except.error { status := 500, detail := httpErrorToString e }
  | Except.ok r => Except.ok r

/-! ### Concrete inputs used by witnesses and counterexamples -/

/-- A frame carrying its own timestamp and both vector fields. -/
def exFrameFull : Frame :=
  { timestamp := some 5, obsJointPositions := some [1, 2], obsImage := none,
    actJointPositions := some [3, 4], actTargetPositions := some [9, 9] }

/-- A frame with no timestamp and no vector fields. -/
def exFrameBare : Frame :=
  { timestamp := none, obsJointPositions := none, obsImage := none,
    actJointPositions := none, actTargetPositions := none }

/-- A frame whose action map holds only `targetPositions`. -/
def exFrameTargetOnly : Frame :=
  { timestamp := some 2, obsJointPositions := none, obsImage := none,
    actJointPositions := none, actTargetPositions := some [7] }

/-- A one-episode batch with one full frame. -/
def exBatch1 : List Episode :=
  [{ episodeIndex := 0, frames := [exFrameFull], languageInstruction := some "pick" }]

/-- An episode whose second frame lacks a timestamp. -/
def exEpisodeTs : Episode :=
  { episodeIndex := 0, frames := [exFrameFull, exFrameBare], languageInstruction := none }

/-! ### Helper lemmas about row projection -/

theorem projectFrames_length (e : Int) (k : Nat) (fs : List Frame) :
    (projectFrames e k fs).length = fs.length := by
  induction fs generalizing k with
  | nil => rfl
  | cons f fs ih => simp [projectFrames, ih]

theorem projectFramesBuffer_length (e : Int) (k : Nat) (fs : List Frame) :
    (projectFramesBuffer e k fs).length = fs.length := by
  induction fs generalizing k with
  | nil => rfl
  | cons f fs ih => simp [projectFramesBuffer, ih]

theorem allRows_length (episodes : List Episode) :
    (allRows episodes).length = totalFrames episodes := by
  induction episodes with
  | nil => rfl
  | cons ep rest ih =>
    simp [allRows, totalFrames, rowsOfEpisode, projectFrames_length, ih] at *

theorem bufferRows_length (episodes : List Episode) :
    (bufferRows episodes).length = totalFrames episodes := by
  induction episodes with
  | nil => rfl
  | cons ep rest ih =>
    simp [bufferRows, totalFrames, bufferRowsOfEpisode, projectFramesBuffer_length, ih] at *

theorem projectFrames_get? (e : Int) (j k : Nat) (fs : List Frame) :
    (projectFrames e j fs).get? k = (fs.get? k).map fun f => projectFrame e (j + k) f := by
  induction fs generalizing j k with
  | nil => simp [projectFrames]
  | cons f fs ih =>
    cases k with
    | zero => simp [projectFrames]
    | succ k =>
      have harith : j + (k + 1) = j + 1 + k := by omega
      show (projectFrames e (j + 1) fs).get? k = (fs.get? k).map fun f => projectFrame e (j + (k + 1)) f
      rw [harith]
      exact ih (j + 1) k

theorem projectFramesBuffer_get? (e : Int) (j k : Nat) (fs : List Frame) :
    (projectFramesBuffer e j fs).get? k = (fs.get? k).map fun f => projectFrameBuffer e (j + k) f := by
  induction fs generalizing j k with
  | nil => simp [projectFramesBuffer]
  | cons f fs ih =>
    cases k with
    | zero => simp [projectFramesBuffer]
    | succ k =>
      have harith : j + (k + 1) = j + 1 + k := by omega
      show (projectFramesBuffer e (j + 1) fs).get? k =
        (fs.get? k).map fun f => projectFrameBuffer e (j + (k + 1)) f
      rw [harith]
      exact ih (j + 1) k

theorem mem_projectFrames (e : Int) (k : Nat) (fs : List Frame) (r : Row)
    (hr : r ∈ projectFrames e k fs) : ∃ j f, f ∈ fs ∧ r = projectFrame e j f := by
  induction fs generalizing k with
  | nil => simp [projectFrames] at hr
  | cons f fs ih =>
    rcases List.mem_cons.mp hr with h | h
    · exact ⟨k, f, List.mem_cons_self f fs, h⟩
    · obtain ⟨j, g, hg, hrg⟩ := ih (k + 1) h
      exact ⟨j, g, List.mem_cons_of_mem f hg, hrg⟩

theorem mem_allRows (episodes : List Episode) (r : Row) (hr : r ∈ allRows episodes) :
    ∃ ep ∈ episodes, ∃ j f, f ∈ ep.frames ∧ r = projectFrame ep.episodeIndex j f := by
  induction episodes with
  | nil => simp [allRows] at hr
  | cons ep rest ih =>
    rcases List.mem_append.mp hr with h | h
    · obtain ⟨j, f, hf, hrf⟩ := mem_projectFrames _ _ _ _ h
      exact ⟨ep, List.mem_cons_self ep rest, j, f, hf, hrf⟩
    · obtain ⟨ep', hep', rest'⟩ := ih h
      exact ⟨ep', List.mem_cons_of_mem ep hep', rest'⟩

/-! ### C7 -/

/-- C7: every directory-mode row carries `task_index = 0`, whatever the
batch's episodes and task strings are. -/
theorem task_index_always_zero (episodes : List Episode) (r : Row)
    (hr : r ∈ allRows episodes) : r.task_index = 0 := by
  obtain ⟨ep, _, j, f, _, hrf⟩ := mem_allRows episodes r hr
  rw [hrf]
  rfl

/-- Witness for C7 at a concrete one-episode batch. -/
theorem task_index_always_zero_witness :
    (projectFrame 0 0 exFrameFull).task_index = 0 :=
  task_index_always_zero exBatch1 (projectFrame 0 0 exFrameFull)
    (by simp [exBatch1, allRows, rowsOfEpisode, projectFrames])

/-! ### C5 -/

/-- C5: the row projected for the frame at 0-indexed position `k` of an
episode defaults its timestamp to `k / 30.0` when the frame has no
timestamp, and keeps the frame's own timestamp otherwise — in directory
mode and in buffer mode alike.  Neither projector takes the declared fps
as an input, so the default is independent of the metadata's fps. -/
theorem timestamp_default_rule (ep : Episode) (k : Nat) (f : Frame)
    (hf : ep.frames.get? k = some f) :
    (rowsOfEpisode ep).get? k = some (projectFrame ep.episodeIndex k f) ∧
    (bufferRowsOfEpisode ep).get? k = some (projectFrameBuffer ep.episodeIndex k f) ∧
    (f.timestamp = none →
      (projectFrame ep.episodeIndex k f).timestamp = (k : Rat) / 30 ∧
      (projectFrameBuffer ep.episodeIndex k f).timestamp = (k : Rat) / 30) ∧
    ∀ t, f.timestamp = some t →
      (projectFrame ep.episodeIndex k f).timestamp = t ∧
      (projectFrameBuffer ep.episodeIndex k f).timestamp = t := by
  refine ⟨?_, ?_, ?_, ?_⟩
  · rw [rowsOfEpisode, projectFrames_get?, hf]
    simp
  · rw [bufferRowsOfEpisode, projectFramesBuffer_get?, hf]
    simp
  · intro hnone
    constructor <;> simp [projectFrame, projectFrameBuffer, hnone]
  · intro t ht
    constructor <;> simp [projectFrame, projectFrameBuffer, ht]

/-- Witness for C5: in `exEpisodeTs`, frame 0 carries timestamp 5 and
keeps it, frame 1 has none and gets `1 / 30`. -/
theorem timestamp_default_rule_witness :
    (rowsOfEpisode exEpisodeTs).get? 1 = some (projectFrame 0 1 exFrameBare) ∧
    (projectFrame 0 1 exFrameBare).timestamp = (1 : Rat) / 30 ∧
    (projectFrame 0 0 exFrameFull).timestamp = 5 := by
  obtain ⟨h1, _, h3, _⟩ := timestamp_default_rule exEpisodeTs 1 exFrameBare rfl
  obtain ⟨_, _, _, h4⟩ := timestamp_default_rule exEpisodeTs 0 exFrameFull rfl
  exact ⟨h1, by simpa using (h3 rfl).1, (h4 5 rfl).1⟩

/-! ### C4 -/

/-- C4 counterexample: the claim also speaks for the buffer-mode
projection of `convert_to_parquet` (lines 359-364), but there a frame
whose action map holds only `targetPositions` gets NO action field at
all, instead of `action = targetPositions` as the claim states. -/
theorem action_fallback_counterexample :
    exFrameTargetOnly.actJointPositions = none ∧
    exFrameTargetOnly.actTargetPositions = some [7] ∧
    (projectFrameBuffer 0 0 exFrameTargetOnly).action ≠ some [7] ∧
    (projectFrameBuffer 0 0 exFrameTargetOnly).action = none := by
  refine ⟨rfl, rfl, ?_, rfl⟩
  simp [projectFrameBuffer, exFrameTargetOnly]

/-- C4 amended: `jointPositions` always wins over `targetPositions` in
both modes, and a frame with neither gets no action field in either mode;
but the fallback to `targetPositions` exists only in directory mode — in
buffer mode a frame with only `targetPositions` has its action field
omitted. -/
theorem action_fallback_amended (e : Int) (k : Nat) (f : Frame) :
    (∀ lj, f.actJointPositions = some lj →
      (projectFrame e k f).action = some lj ∧ (projectFrameBuffer e k f).action = some lj) ∧
    (f.actJointPositions = none → ∀ lt, f.actTargetPositions = some lt →
      (projectFrame e k f).action = some lt ∧ (projectFrameBuffer e k f).action = none) ∧
    (f.actJointPositions = none → f.actTargetPositions = none →
      (projectFrame e k f).action = none ∧ (projectFrameBuffer e k f).action = none) := by
  refine ⟨?_, ?_, ?_⟩
  · intro lj hj
    constructor <;> simp [projectFrame, projectFrameBuffer, hj]
  · intro hj lt ht
    constructor <;> simp [projectFrame, projectFrameBuffer, hj, ht]
  · intro hj ht
    constructor <;> simp [projectFrame, projectFrameBuffer, hj, ht]

/-- Witness for C4's amended theorem at concrete frames: both fields
present projects `jointPositions` in both modes; only `targetPositions`
present projects it in directory mode and nothing in buffer mode. -/
theorem action_fallback_amended_witness :
    (projectFrame 0 0 exFrameFull).action = some [3, 4] ∧
    (projectFrameBuffer 0 0 exFrameFull).action = some [3, 4] ∧
    (projectFrame 0 0 exFrameTargetOnly).action = some [7] ∧
    (projectFrameBuffer 0 0 exFrameTargetOnly).action = none := by
  obtain ⟨hfull, _, _⟩ := action_fallback_amended 0 0 exFrameFull
  obtain ⟨_, htgt, _⟩ := action_fallback_amended 0 0 exFrameTargetOnly
  obtain ⟨h1, h2⟩ := hfull [3, 4] rfl
  obtain ⟨h3, h4⟩ := htgt rfl [7] rfl
  exact ⟨h1, h2, h3, h4⟩

/-! ### Helper lemmas about the columnar encoder -/

theorem columnOf_length (rows : List Row) (name : String) :
    (columnOf rows name).length = rows.length :=
  List.length_map rows (cellOfRow name)

theorem makeArray_ok_eq (name : String) (t : ColType) (cells arr : List Cell)
    (h : makeArray name t cells = Except.ok arr) : arr = cells := by
  cases t with
  | fslist W =>
    simp only [makeArray] at h
    cases hall : cells.all (fixedListOk W) with
    | true => rw [hall] at h; exact (Except.ok.inj h).symm
    | false => rw [hall] at h; exact absurd h (by simp)
  | int64 => exact (Except.ok.inj h).symm
  | float64 => exact (Except.ok.inj h).symm

theorem makeArray_fslist_ok_all (name : String) (W : Nat) (cells arr : List Cell)
    (h : makeArray name (ColType.fslist W) cells = Except.ok arr) :
    ∀ c ∈ cells, fixedListOk W c = true := by
  simp only [makeArray] at h
  cases hall : cells.all (fixedListOk W) with
  | true => exact List.all_eq_true.mp hall
  | false => rw [hall] at h; exact absurd h (by simp)

theorem collectFields_ok_map (rows : List Row) (fields : List (String × ColType))
    (out : List (String × List Cell)) (h : collectFields rows fields = Except.ok out) :
    out = fields.map fun p => (p.1, columnOf rows p.1) := by
  induction fields generalizing out with
  | nil =>
    simp [collectFields] at h
    simp [← h]
  | cons p rest ih =>
    obtain ⟨name, t⟩ := p
    unfold collectFields at h
    cases harr : makeArray name t (columnOf rows name) with
    | error e => rw [harr] at h; exact absurd h (by simp)
    | ok arr =>
      rw [harr] at h
      cases htl : collectFields rows rest with
      | error e => rw [htl] at h; exact absurd h (by simp)
      | ok tl =>
        rw [htl] at h
        have harr' := makeArray_ok_eq name t _ arr harr
        have htl' := ih tl htl
        simp at h
        simp [← h, harr', htl']

theorem collectFields_ok_field (rows : List Row) (fields : List (String × ColType))
    (out : List (String × List Cell)) (h : collectFields rows fields = Except.ok out)
    (name : String) (t : ColType) (hmem : (name, t) ∈ fields) :
    ∃ arr, makeArray name t (columnOf rows name) = Except.ok arr := by
  induction fields generalizing out with
  | nil => simp at hmem
  | cons p rest ih =>
    obtain ⟨n, t'⟩ := p
    unfold collectFields at h
    cases harr : makeArray n t' (columnOf rows n) with
    | error e => rw [harr] at h; exact absurd h (by simp)
    | ok arr =>
      rw [harr] at h
      cases htl : collectFields rows rest with
      | error e => rw [htl] at h; exact absurd h (by simp)
      | ok tl =>
        rcases List.mem_cons.mp hmem with heq | hmem'
        · obtain ⟨h1, h2⟩ := Prod.mk.injEq .. ▸ heq
          subst h1; subst h2
          exact ⟨arr, harr⟩
        · exact ih tl htl hmem'

theorem cellOfRow_state (r : Row) :
    cellOfRow "observation.state" r =
      match r.observationState with
      | some l => Cell.vec l
      | none => Cell.null := rfl

theorem cellOfRow_action (r : Row) :
    cellOfRow "action" r =
      match r.action with
      | some l => Cell.vec l
      | none => Cell.null := rfl

/-! ### C1 -/

/-- C1: whenever a non-empty batch compiles successfully in directory
mode, every column of the encoded table has exactly `sum(len(frames))`
cells, `info.total_frames` equals that sum, every `EpisodeMeta.length`
equals its episode's frame count, and `info.total_episodes` equals the
number of episodes. -/
theorem upload_counts_consistent (robotType : String) (fps : Int)
    (episodes : List Episode) (hne : allRows episodes ≠ []) (b : Bundle)
    (hb : buildBundle robotType fps episodes = Except.ok b) :
    (∃ tbl, b.table = some tbl ∧ tbl ≠ [] ∧
      ∀ c ∈ tbl, c.2.length = totalFrames episodes) ∧
    b.info.total_frames = totalFrames episodes ∧
    b.episodesMeta.map EpisodeMeta.length = episodes.map (fun ep => ep.frames.length) ∧
    b.info.total_episodes = episodes.length := by
  unfold buildBundle at hb
  rw [if_neg (by simpa using hne)] at hb
  cases ht : buildTable (allRows episodes) with
  | error e => rw [ht] at hb; exact absurd hb (by simp)
  | ok tbl =>
    rw [ht] at hb
    have hb' := Except.ok.inj hb
    have htbl := collectFields_ok_map _ _ _ ht
    refine ⟨⟨tbl, ?_, ?_, ?_⟩, ?_, ?_, ?_⟩
    · rw [← hb']
    · rw [htbl]
      cases hrows : allRows episodes with
      | nil => exact absurd hrows hne
      | cons r0 rest => simp [schemaFields, baseFields]
    · intro c hc
      rw [htbl] at hc
      obtain ⟨p, _, hp⟩ := List.mem_map.mp hc
      rw [← hp]
      simp [columnOf_length, allRows_length]
    · rw [← hb']
      simp [buildInfo]
    · rw [← hb']
      simp [episodeMetadata, Function.comp]
    · rw [← hb']
      simp [buildInfo]

/-- Witness for C1 at a concrete one-episode, one-frame batch. -/
theorem upload_counts_consistent_witness :
    ∃ b, buildBundle "so100" 30 exBatch1 = Except.ok b ∧
      b.info.total_frames = 1 ∧
      b.episodesMeta.map EpisodeMeta.length = [1] ∧
      b.info.total_episodes = 1 := by
  obtain ⟨b, hb⟩ : ∃ b, buildBundle "so100" 30 exBatch1 = Except.ok b := ⟨_, rfl⟩
  have h := upload_counts_consistent "so100" 30 exBatch1
    (by simp [exBatch1, allRows, rowsOfEpisode, projectFrames]) b hb
  refine ⟨b, hb, ?_, ?_, ?_⟩
  · rw [h.2.1]; rfl
  · rw [h.2.2.1]; rfl
  · exact h.2.2.2

/-! ### C3 -/

/-- C3: when the first projected row fixes the width `W` of
`observation.state` or `action` and any row of the batch supplies that
field at a different width, directory-mode compilation aborts with a
dimension-mismatch error (so no bundle exists at all); and whenever
compilation does succeed, every encoded column is exactly the projected
cell list — nothing is truncated or padded. -/
theorem dimension_mismatch_aborts (robotType : String) (fps : Int)
    (episodes : List Episode) (W : Nat) (r0 : Row) (rest : List Row)
    (h : allRows episodes = r0 :: rest) :
    ((((∃ l0, r0.observationState = some l0 ∧ l0.length = W) ∧
        ∃ r ∈ allRows episodes, ∃ l, r.observationState = some l ∧ l.length ≠ W) ∨
      ((∃ l0, r0.action = some l0 ∧ l0.length = W) ∧
        ∃ r ∈ allRows episodes, ∃ l, r.action = some l ∧ l.length ≠ W)) →
      ∃ col W', buildBundle robotType fps episodes =
        Except.error (EncodeError.dimensionMismatch col W')) ∧
    (∀ b, buildBundle robotType fps episodes = Except.ok b →
      ∀ tbl, b.table = some tbl → ∀ c ∈ tbl, c.2 = columnOf (allRows episodes) c.1) := by
  have hne : ¬ (allRows episodes).isEmpty = true := by simp [h]
  constructor
  · intro hbad
    cases ht : buildTable (allRows episodes) with
    | error e =>
      cases e with
      | dimensionMismatch col W' =>
        refine ⟨col, W', ?_⟩
        unfold buildBundle
        rw [if_neg hne, ht]
    | ok tbl =>
      exfalso
      rcases hbad with ⟨⟨l0, hl0, hl0W⟩, r, hr, l, hl, hlW⟩ |
        ⟨⟨l0, hl0, hl0W⟩, r, hr, l, hl, hlW⟩
      · have hmem : ("observation.state", ColType.fslist W) ∈ schemaFields (allRows episodes) := by
          rw [h]
          simp [schemaFields, hl0, hl0W]
        obtain ⟨arr, harr⟩ := collectFields_ok_field _ _ _ ht _ _ hmem
        have hall := makeArray_fslist_ok_all _ _ _ _ harr
        have hcell : Cell.vec l ∈ columnOf (allRows episodes) "observation.state" := by
          refine List.mem_map.mpr ⟨r, hr, ?_⟩
          rw [cellOfRow_state, hl]
        have := hall _ hcell
        simp [fixedListOk] at this
        exact hlW this
      · have hmem : ("action", ColType.fslist W) ∈ schemaFields (allRows episodes) := by
          rw [h]
          simp [schemaFields, hl0, hl0W]
        obtain ⟨arr, harr⟩ := collectFields_ok_field _ _ _ ht _ _ hmem
        have hall := makeArray_fslist_ok_all _ _ _ _ harr
        have hcell : Cell.vec l ∈ columnOf (allRows episodes) "action" := by
          refine List.mem_map.mpr ⟨r, hr, ?_⟩
          rw [cellOfRow_action, hl]
        have := hall _ hcell
        simp [fixedListOk] at this
        exact hlW this
  · intro b hb tbl htbl c hc
    unfold buildBundle at hb
    rw [if_neg hne] at hb
    cases ht : buildTable (allRows episodes) with
    | error e => rw [ht] at hb; exact absurd hb (by simp)
    | ok tbl' =>
      rw [ht] at hb
      have hb' := Except.ok.inj hb
      rw [← hb'] at htbl
      simp at htbl
      rw [← htbl] at hc
      have := collectFields_ok_map _ _ _ ht
      rw [this] at hc
      obtain ⟨p, _, hp⟩ := List.mem_map.mp hc
      rw [← hp]

/-- A frame whose action vector has width 2. -/
def exFrameAct2 : Frame :=
  { timestamp := some 0, obsJointPositions := none, obsImage := none,
    actJointPositions := some [1, 2], actTargetPositions := none }

/-- A frame whose action vector has width 1. -/
def exFrameAct1 : Frame :=
  { timestamp := some 1, obsJointPositions := none, obsImage := none,
    actJointPositions := some [9], actTargetPositions := none }

/-- A batch whose action widths disagree between frame 0 and frame 1. -/
def exBatchMismatch : List Episode :=
  [{ episodeIndex := 0, frames := [exFrameAct2, exFrameAct1], languageInstruction := none }]

/-- Witness for C3: the width-2-then-width-1 batch aborts with a
dimension mismatch. -/
theorem dimension_mismatch_aborts_witness :
    ∃ col W', buildBundle "so100" 30 exBatchMismatch =
      Except.error (EncodeError.dimensionMismatch col W') := by
  have h := (dimension_mismatch_aborts "so100" 30 exBatchMismatch 2
    (projectFrame 0 0 exFrameAct2)
    (projectFrames 0 1 [exFrameAct1] ++ allRows []) rfl).1
  refine h (Or.inr ⟨⟨[1, 2], rfl, rfl⟩, projectFrame 0 1 exFrameAct1, ?_, [9], rfl, by decide⟩)
  simp [exBatchMismatch, allRows, rowsOfEpisode, projectFrames]

/-! ### Helper lemmas about the task dictionary -/

theorem addTask_mem (acc : List String) (s s' : String) :
    s' ∈ addTask acc s ↔ s' ∈ acc ∨ s' = s := by
  by_cases hs : s ∈ acc
  · simp only [addTask, if_pos hs]
    constructor
    · exact Or.inl
    · rintro (h | h)
      · exact h
      · rw [h]; exact hs
  · simp [addTask, if_neg hs]

theorem addTask_nodup (acc : List String) (s : String) (h : acc.Nodup) :
    (addTask acc s).Nodup := by
  by_cases hs : s ∈ acc
  · simpa [addTask, if_pos hs] using h
  · simp [addTask, if_neg hs, List.nodup_append, h, hs]

theorem tasksAux_nodup (episodes : List Episode) (acc : List String) (h : acc.Nodup) :
    (tasksAux acc episodes).Nodup := by
  induction episodes generalizing acc with
  | nil => exact h
  | cons ep rest ih => exact ih _ (addTask_nodup acc (taskOf ep) h)

theorem tasksAux_mem (episodes : List Episode) (acc : List String) (s : String) :
    s ∈ tasksAux acc episodes ↔ s ∈ acc ∨ ∃ ep ∈ episodes, s = taskOf ep := by
  induction episodes generalizing acc with
  | nil => simp [tasksAux]
  | cons ep rest ih =>
    rw [tasksAux, ih, addTask_mem]
    constructor
    · rintro ((h | h) | ⟨ep', hep', h⟩)
      · exact Or.inl h
      · exact Or.inr ⟨ep, List.mem_cons_self ep rest, h⟩
      · exact Or.inr ⟨ep', List.mem_cons_of_mem ep hep', h⟩
    · rintro (h | ⟨ep', hep', h⟩)
      · exact Or.inl (Or.inl h)
      · rcases List.mem_cons.mp hep' with heq | hmem
        · exact Or.inl (Or.inr (heq ▸ h))
        · exact Or.inr ⟨ep', hmem, h⟩

/-! ### C8 -/

/-- C8: the directory-mode task dictionary has exactly one entry per
distinct task string — an episode's string being its
`languageInstruction` when present, the placeholder `"manipulation task"`
otherwise — and the assigned indices are exactly `0, 1, ...` with no gap
and no repetition. -/
theorem task_dictionary_dense (episodes : List Episode) :
    (tasksList episodes).Nodup ∧
    (∀ s, s ∈ tasksList episodes ↔
      ∃ ep ∈ episodes, s = ep.languageInstruction.getD "manipulation task") ∧
    (taskEntries episodes).map Prod.fst = List.range (tasksList episodes).length ∧
    (taskEntries episodes).map Prod.snd = tasksList episodes := by
  refine ⟨tasksAux_nodup episodes [] List.nodup_nil, ?_, ?_, ?_⟩
  · intro s
    rw [tasksList, tasksAux_mem]
    simp [taskOf]
  · exact List.enum_map_fst _
  · exact List.enum_map_snd _

/-- A three-episode batch with a duplicated task string and one missing
instruction. -/
def exBatchTasks : List Episode :=
  [{ episodeIndex := 0, frames := [], languageInstruction := some "pick" },
   { episodeIndex := 1, frames := [], languageInstruction := none },
   { episodeIndex := 2, frames := [], languageInstruction := some "pick" }]

/-- Witness for C8: the duplicate collapses, the absent instruction
becomes the placeholder, and the indices are `[0, 1]`. -/
theorem task_dictionary_dense_witness :
    tasksList exBatchTasks = ["pick", "manipulation task"] ∧
    (taskEntries exBatchTasks).map Prod.fst = [0, 1] ∧
    "manipulation task" ∈ tasksList exBatchTasks := by
  have h := task_dictionary_dense exBatchTasks
  refine ⟨rfl, ?_, ?_⟩
  · rw [h.2.2.1]; rfl
  · exact (h.2.1 "manipulation task").mpr
      ⟨{ episodeIndex := 1, frames := [], languageInstruction := none },
        by simp [exBatchTasks], rfl⟩

/-! ### C9 -/

/-- C9: for a non-empty batch, the `info.json` feature descriptors for
`observation.state` and `action` declare shape `[W]` with `W` the length
of the first projected row's vector (0 when the first row lacks the
field), and always the six fixed names `joint_1 .. joint_5, gripper`,
whatever `W` is. -/
theorem info_feature_descriptors (robotType : String) (fps : Int)
    (episodes : List Episode) (r0 : Row) (rest : List Row)
    (h : allRows episodes = r0 :: rest) :
    (buildInfo robotType fps episodes).featObservationState.shape =
      [(r0.observationState.getD []).length] ∧
    (buildInfo robotType fps episodes).featAction.shape = [(r0.action.getD []).length] ∧
    (buildInfo robotType fps episodes).featObservationState.names =
      ["joint_1", "joint_2", "joint_3", "joint_4", "joint_5", "gripper"] ∧
    (buildInfo robotType fps episodes).featAction.names =
      ["joint_1", "joint_2", "joint_3", "joint_4", "joint_5", "gripper"] := by
  refine ⟨?_, ?_, ?_, ?_⟩ <;> simp [buildInfo, h, jointNames]

/-- A batch whose single frame has width-1 vectors (so width ≠ 6). -/
def exBatchW1 : List Episode :=
  [{ episodeIndex := 0,
     frames := [{ timestamp := some 0, obsJointPositions := some [4], obsImage := none,
                  actJointPositions := some [5], actTargetPositions := none }],
     languageInstruction := none }]

/-- Witness for C9 at a width-1 batch: shapes are `[1]` while the name
list still has the six fixed entries. -/
theorem info_feature_descriptors_witness :
    (buildInfo "so100" 30 exBatchW1).featObservationState.shape = [1] ∧
    (buildInfo "so100" 30 exBatchW1).featAction.shape = [1] ∧
    (buildInfo "so100" 30 exBatchW1).featObservationState.names.length = 6 ∧
    (buildInfo "so100" 30 exBatchW1).featAction.names =
      ["joint_1", "joint_2", "joint_3", "joint_4", "joint_5", "gripper"] := by
  obtain ⟨h1, h2, h3, h4⟩ := info_feature_descriptors "so100" 30 exBatchW1
    (projectFrame 0 0
      { timestamp := some 0, obsJointPositions := some [4], obsImage := none,
        actJointPositions := some [5], actTargetPositions := none }) [] rfl
  refine ⟨?_, ?_, ?_, h4⟩
  · rw [h1]; rfl
  · rw [h2]; rfl
  · rw [h3]; rfl

/-! ### C10 -/

/-- C10: for any batch with at least one frame, buffer mode answers
exactly `{success: true, parquet_base64: s, num_rows: n}` with `n` the
total frame count and `s` the lowercase-hex (not base64) rendering of the
serialized bytes of the encoded table.  `serialize` stands for the
external `pq.write_table` into the in-memory buffer. -/
theorem convert_success_response (serialize : List (String × List Cell) → List Nat)
    (episodes : List Episode) (hne : bufferRows episodes ≠ []) :
    convert_to_parquet serialize episodes =
      Except.ok
        { success := true
          parquet_base64 := bytesHex (serialize (bufferTable episodes))
          num_rows := totalFrames episodes } := by
  unfold convert_to_parquet convertBody
  rw [if_neg (by simpa using hne)]
  rw [bufferRows_length]

/-- Witness for C10: a one-frame batch with serialized bytes `[171, 0]`
answers success, hex `"ab00"` and one row. -/
theorem convert_success_response_witness :
    convert_to_parquet (fun _ => [171, 0]) exBatch1 =
      Except.ok { success := true, parquet_base64 := "ab00", num_rows := 1 } := by
  rw [convert_success_response (fun _ => [171, 0]) exBatch1
    (by simp [exBatch1, bufferRows, bufferRowsOfEpisode, projectFramesBuffer])]
  rfl

/-! ### C2 -/

/-- C2 counterexample: on the same one-frame input, directory mode
encodes six columns (among them `task_index`) while buffer mode encodes
five — the two modes do not even agree on the column set, so their table
encodings cannot be byte-identical. -/
theorem modes_not_identical_counterexample :
    (buildTable (allRows exBatch1)).map (fun tbl => tbl.map Prod.fst) =
      Except.ok ["episode_index", "frame_index", "timestamp", "task_index",
        "observation.state", "action"] ∧
    (bufferTable exBatch1).map Prod.fst =
      ["episode_index", "frame_index", "timestamp", "observation.state", "action"] ∧
    ["episode_index", "frame_index", "timestamp", "task_index",
        "observation.state", "action"] ≠
      ["episode_index", "frame_index", "timestamp", "observation.state", "action"] := by
  refine ⟨rfl, rfl, ?_⟩
  decide

/-- C2 amended: the two modes agree row-for-row on the three shared base
columns (`episode_index`, `frame_index`, `timestamp`) for every input
batch, but their encodings are not identical in general — directory mode
additionally emits a `task_index` column, applies the `targetPositions`
action fallback, and fixes float32 vector widths, none of which buffer
mode does. -/
theorem modes_share_base_columns (episodes : List Episode) :
    (allRows episodes).map (fun r => (r.episode_index, r.frame_index, r.timestamp)) =
      (bufferRows episodes).map (fun r => (r.episode_index, r.frame_index, r.timestamp)) := by
  have hframes : ∀ (e : Int) (k : Nat) (fs : List Frame),
      (projectFrames e k fs).map (fun r => (r.episode_index, r.frame_index, r.timestamp)) =
        (projectFramesBuffer e k fs).map
          (fun r => (r.episode_index, r.frame_index, r.timestamp)) := by
    intro e k fs
    induction fs generalizing k with
    | nil => rfl
    | cons f fs ih =>
      simp [projectFrames, projectFramesBuffer, projectFrame, projectFrameBuffer, ih]
  induction episodes with
  | nil => rfl
  | cons ep rest ih =>
    simp [allRows, bufferRows, rowsOfEpisode, bufferRowsOfEpisode, hframes, ih]

/-! ### C6 -/

/-- C6 evaluation of the code bug: a batch with zero frames overall does
abort before any encoding, but the raised
`HTTPException(400, "No frames to convert")` is caught by the endpoint's
own blanket `except Exception` handler and re-raised as status 500 with
detail `str(e)` — the same status as dimension mismatches and internal
errors, so the caller cannot tell InputEmpty apart by status. -/
theorem input_empty_wrapped_as_500 (serialize : List (String × List Cell) → List Nat)
    (episodes : List Episode) (hempty : totalFrames episodes = 0) :
    convert_to_parquet serialize episodes =
      Except.error { status := 500, detail := "400: No frames to convert" } := by
  have hrows : bufferRows episodes = [] :=
    List.length_eq_zero.mp ((bufferRows_length episodes).trans hempty)
  unfold convert_to_parquet convertBody
  rw [if_pos (by simp [hrows])]
  rfl

/-- Witness for C6 at the empty batch. -/
theorem input_empty_wrapped_as_500_witness :
    convert_to_parquet (fun _ => []) [] =
      Except.error { status := 500, detail := "400: No frames to convert" } :=
  input_empty_wrapped_as_500 (fun _ => []) [] rfl

end RoboSim
